import Mathlib

/-!
Verification of the booking admission and concurrency-control engine of the
`booking-manager` repository, shallowly embedded in Lean.

Modelling conventions:
* UUIDs for users, tickets and bookings are modelled as `Nat`; the event
  identifier is modelled by the string form of its UUID (the code hashes
  `eventID.String()` for queue routing).
* Time is modelled in whole seconds as `Int` (Go `time.Time` instants and
  `time.Duration` spans); `now.Before(x)` becomes `now < x`, `now.After(x)`
  becomes `x < now`.
* Go maps are modelled as functions into `Option`; channel queues as lists
  with an explicit capacity; the `sync` mutexes that only guard the maps are
  not part of the sequential state.
* Go `int64` statistics counters are modelled as `Nat` (they only ever
  increase by one per request and never reach the wrap-around range).
* Each fallible external collaborator call (user lookup, event lookup,
  `CreateBooking`, `ReserveTickets`) is modelled by a boolean oracle saying
  whether that call succeeds; the collaborators' own state is out of scope.
* A sequential run of `processBookingRequest` is modelled at a single
  instant `now` (the code calls `time.Now()` at each step of one request;
  the claims proved here do not depend on the clock advancing mid-request).
-/

namespace BookingManager

/-- Seconds per minute; Go durations such as `10 * time.Minute` become
`10 * minute` seconds. -/
def minute : Int := 60

/-! ## Ticket lock manager (`src/utils/concurrency/ticket_lock_manager.go`) -/

/-- `TicketLock`: one entry of the ticket lock table (the `TicketID` key is
kept outside the entry, as the map key). -/
structure TicketLock where
  userID : Nat
  lockedAt : Int
  expiresAt : Int
deriving DecidableEq, Repr

/-- The ticket-lock TTL: locks expire 10 minutes after acquisition
(`now.Add(10 * time.Minute)` in `LockTicket`). -/
def ticketLockTTL : Int := 10 * minute

/-- The `locks` map of `TicketLockManager`. -/
def TicketLockTable : Type := Nat → Option TicketLock

/-- `LockTicket`: try to lock `ticketID` for `userID` at instant `now`.
Returns the updated table and the boolean result. -/
def lockTicket (locks : TicketLockTable) (ticketID userID : Nat) (now : Int) :
    TicketLockTable × Bool :=
  match locks ticketID with
  | some lock =>
    if now < lock.expiresAt then
      (locks, lock.userID == userID)
    else
      (fun k => if k = ticketID then
          some { userID := userID, lockedAt := now, expiresAt := now + ticketLockTTL }
        else locks k, true)
  | none =>
      (fun k => if k = ticketID then
          some { userID := userID, lockedAt := now, expiresAt := now + ticketLockTTL }
        else locks k, true)

/-- `UnlockTicket`: remove the lock on `ticketID` if it is held by `userID`. -/
def unlockTicket (locks : TicketLockTable) (ticketID userID : Nat) :
    TicketLockTable × Bool :=
  match locks ticketID with
  | none => (locks, false)
  | some lock =>
    if lock.userID ≠ userID then
      (locks, false)
    else
      (fun k => if k = ticketID then none else locks k, true)

/-- `IsTicketLocked`: true iff an entry exists and has not expired
(`time.Now().Before(lock.ExpiresAt)`). -/
def isTicketLocked (locks : TicketLockTable) (ticketID : Nat) (now : Int) : Bool :=
  match locks ticketID with
  | none => false
  | some lock => decide (now < lock.expiresAt)

/-- `CleanupExpiredLocks`: the state effect of the periodic sweep — every
entry with `now.After(lock.ExpiresAt)` is deleted. -/
def cleanupExpiredLocks (locks : TicketLockTable) (now : Int) : TicketLockTable :=
  fun k =>
    match locks k with
    | none => none
    | some lock => if lock.expiresAt < now then none else some lock

/-- `ownedBy locks k u`: the table has an entry for ticket `k` whose recorded
holder is `u`. -/
def ownedBy (locks : TicketLockTable) (k u : Nat) : Prop :=
  ∃ l, locks k = some l ∧ l.userID = u

instance (locks : TicketLockTable) (k u : Nat) : Decidable (ownedBy locks k u) := by
  unfold ownedBy
  cases h : locks k with
  | none => exact .isFalse (by simp [h])
  | some l => exact decidable_of_iff (l.userID = u) (by simp [h])

/-! ## Event lock manager (`event_lock_manager.go`) -/

/-- `EventLock`: one entry of the event lock table (the `sync.Mutex` handle
carries no data and is omitted; `refCount` is a signed `int32`). -/
structure EventLock where
  lastUsed : Int
  expiresAt : Int
  refCount : Int
deriving DecidableEq, Repr

/-- TTL passed to `NewEventLockManager` by the booking processor: 30 minutes. -/
def eventLockTTL : Int := 30 * minute

/-- Max idle passed to `NewEventLockManager` by the booking processor: 5 minutes. -/
def eventLockMaxIdle : Int := 5 * minute

/-- The `locks` map of `EventLockManager`. -/
def EventLockTable : Type := Nat → Option EventLock

/-- `GetLock`: create the entry if absent (with `refCount := 0`), then
refresh `lastUsed`/`expiresAt` and increment the reference count. -/
def getLock (locks : EventLockTable) (eventID : Nat) (ttl : Int) (now : Int) :
    EventLockTable :=
  let base : EventLock :=
    match locks eventID with
    | some l => l
    | none => { lastUsed := now, expiresAt := now + ttl, refCount := 0 }
  fun k => if k = eventID then
      some { lastUsed := now, expiresAt := now + ttl, refCount := base.refCount + 1 }
    else locks k

/-- `ReleaseLock`: decrement the reference count; if it drops to zero or
below, mark the entry for cleanup by backdating its expiry one second
(`lock.expiresAt = time.Now().Add(-time.Second)`). -/
def releaseLock (locks : EventLockTable) (eventID : Nat) (now : Int) :
    EventLockTable :=
  match locks eventID with
  | none => locks
  | some l =>
    let dec : EventLock := { l with refCount := l.refCount - 1 }
    let marked : EventLock :=
      if dec.refCount ≤ 0 then { dec with expiresAt := now - 1 } else dec
    fun k => if k = eventID then some marked else locks k

/-- `performCleanup`: remove every entry that is expired
(`now.After(lock.expiresAt)`) or zero-referenced and idle longer than
`maxIdle` (`lock.refCount == 0 && now.After(lock.lastUsed.Add(maxIdle))`). -/
def performCleanup (locks : EventLockTable) (maxIdle : Int) (now : Int) :
    EventLockTable :=
  fun k =>
    match locks k with
    | none => none
    | some l =>
      if l.expiresAt < now ∨ (l.refCount = 0 ∧ l.lastUsed + maxIdle < now) then
        none
      else
        some l

/-! ## Queue manager (`queue_manager.go`) -/

/-- `BookingRequest`: a queued request. `eventID` is the string form of the
event UUID, which is what the routing hash consumes. -/
structure BookingRequest where
  id : String
  userID : Nat
  eventID : String
  ticketIDs : List Nat
  timestamp : Int
  priority : Int
deriving DecidableEq, Repr

/-- `QueueManager`: `queueCount` bounded FIFO queues, each of capacity
`bufferSize` (the channel buffer size). -/
structure QueueManager where
  queues : List (List BookingRequest)
  queueCount : Nat
  bufferSize : Nat
deriving Repr

/-- `NewQueueManager`: `queueCount` empty queues of capacity `bufferSize`. -/
def newQueueManager (queueCount bufferSize : Nat) : QueueManager :=
  { queues := List.replicate queueCount []
    queueCount := queueCount
    bufferSize := bufferSize }

/-- `getQueueIndex`: fold over the runes of the event identifier's string
form, `queueIndex = (queueIndex + int(char)) % qm.queueCount`. -/
def getQueueIndex (queueCount : Nat) (eventID : String) : Nat :=
  eventID.data.foldl (fun queueIndex c => (queueIndex + c.toNat) % queueCount) 0

/-- `GetQueue`: recompute the same hash loop as `getQueueIndex` and return
the queue at that index. -/
def GetQueue (qm : QueueManager) (eventID : String) : List BookingRequest :=
  let queueIndex :=
    eventID.data.foldl (fun queueIndex c => (queueIndex + c.toNat) % qm.queueCount) 0
  qm.queues.getD queueIndex []

/-- `Enqueue`: non-blocking send onto the routed queue. The `select` with
`default` succeeds iff the channel has free buffer space; on a full queue it
returns an error (`false` here, for Go's non-nil `context.DeadlineExceeded`)
and leaves every queue unchanged. -/
def Enqueue (qm : QueueManager) (req : BookingRequest) : QueueManager × Bool :=
  let queueIndex := getQueueIndex qm.queueCount req.eventID
  let queue := qm.queues.getD queueIndex []
  if queue.length < qm.bufferSize then
    ({ qm with queues := qm.queues.set queueIndex (queue ++ [req]) }, true)
  else
    (qm, false)

/-! ## Booking processor (`booking_processor.go`) -/

/-- `BookingStatus` of a `Booking` record. -/
inductive BookingStatus where
  | pending
  | confirmed
  | cancelled
  | expired
deriving DecidableEq, Repr

/-- `Booking` (package `domain_booking`). `totalAmount` is in whole dollars
(the code computes `float64(len(ticketIDs)) * 50.0`, exact on integers). -/
structure Booking where
  id : Nat
  userID : Nat
  eventID : String
  ticketIDs : List Nat
  status : BookingStatus
  totalAmount : Int
  createdAt : Int
  updatedAt : Int
  expiresAt : Int
deriving DecidableEq, Repr

/-- `BookingStats` counters (`int64`/`int` in Go, modelled as `Nat`). -/
structure BookingStats where
  totalRequests : Nat
  successfulBookings : Nat
  failedBookings : Nat
  queueLength : Nat
  activeLocks : Nat
  startTime : Int
deriving DecidableEq, Repr

/-- The state of one booking processor that `processBookingRequest` reads and
writes: the ticket lock table, the persisted `Booking` records (the booking
repository as seen through `Create`/`Delete`), and the statistics. -/
structure ProcState where
  locks : TicketLockTable
  bookings : List Booking
  stats : BookingStats

/-- Success/failure of each external collaborator call made during one
request: `GetByID` on the user repo, `GetByID` on the event repo,
`bookingRepo.Create`, `ticketRepo.ReserveTickets`. -/
structure CollabOracle where
  userOk : Bool
  eventOk : Bool
  createOk : Bool
  reserveOk : Bool
deriving DecidableEq, Repr

/-- `calculateTotalAmount`: placeholder pricing, $50 per ticket. -/
def calculateTotalAmount (ticketIDs : List Nat) : Int :=
  ticketIDs.length * 50

/-- `releaseTickets`: unlock every ticket in the list with `userID` as owner. -/
def releaseTickets (locks : TicketLockTable) (ticketIDs : List Nat) (userID : Nat) :
    TicketLockTable :=
  ticketIDs.foldl (fun l t => (unlockTicket l t userID).1) locks

/-- `recordSuccess`. -/
def recordSuccess (s : BookingStats) : BookingStats :=
  { s with successfulBookings := s.successfulBookings + 1 }

/-- `recordFailure`. -/
def recordFailure (s : BookingStats) : BookingStats :=
  { s with failedBookings := s.failedBookings + 1 }

/-- Result of the ticket-locking loop of `processBookingRequest`. -/
structure LockLoopResult where
  locks : TicketLockTable
  acquired : List Nat
  ok : Bool

/-- The `for _, ticketID := range req.TicketIDs` loop: lock each ticket in
request order, accumulating `lockedTickets`; stop at the first failure
without attempting the remaining tickets. -/
def lockLoop (locks : TicketLockTable) (tickets : List Nat) (userID : Nat)
    (now : Int) (acc : List Nat) : LockLoopResult :=
  match tickets with
  | [] => { locks := locks, acquired := acc, ok := true }
  | t :: rest =>
    let r := lockTicket locks t userID now
    if r.2 then
      lockLoop r.1 rest userID now (acc ++ [t])
    else
      { locks := r.1, acquired := acc, ok := false }

/-- The booking hold duration: a pending `Booking` expires 15 minutes after
creation (`time.Now().Add(15 * time.Minute)`). -/
def bookingHoldDuration : Int := 15 * minute

/-- `processBookingRequest`: process one dequeued request at instant `now`.
`newBookingID` models the fresh `uuid.New()` of the created booking. The
returned boolean is `true` on the `recordSuccess` path and `false` on every
`recordFailure` path. -/
def processBookingRequest (st : ProcState) (req : BookingRequest)
    (o : CollabOracle) (now : Int) (newBookingID : Nat) : ProcState × Bool :=
  let st1 : ProcState :=
    { st with stats := { st.stats with totalRequests := st.stats.totalRequests + 1 } }
  if !o.userOk then
    ({ st1 with stats := recordFailure st1.stats }, false)
  else if !o.eventOk then
    ({ st1 with stats := recordFailure st1.stats }, false)
  else
    let r := lockLoop st1.locks req.ticketIDs req.userID now []
    if !r.ok then
      ({ st1 with
          locks := releaseTickets r.locks r.acquired req.userID
          stats := recordFailure st1.stats }, false)
    else
      let booking : Booking :=
        { id := newBookingID
          userID := req.userID
          eventID := req.eventID
          ticketIDs := r.acquired
          status := .pending
          totalAmount := calculateTotalAmount r.acquired
          createdAt := now
          updatedAt := now
          expiresAt := now + bookingHoldDuration }
      if !o.createOk then
        ({ st1 with
            locks := releaseTickets r.locks r.acquired req.userID
            stats := recordFailure st1.stats }, false)
      else
        let bookings1 := booking :: st1.bookings
        if !o.reserveOk then
          ({ locks := releaseTickets r.locks r.acquired req.userID
             bookings := bookings1.filter (fun b => b.id ≠ newBookingID)
             stats := recordFailure st1.stats }, false)
        else
          ({ st1 with
              locks := r.locks
              bookings := bookings1
              stats := recordSuccess st1.stats }, true)

/-! ## Basic lemmas about the ticket lock table -/

theorem lockTicket_false_unchanged (locks : TicketLockTable) (tid u : Nat) (now : Int)
    (h : (lockTicket locks tid u now).2 = false) :
    (lockTicket locks tid u now).1 = locks := by
  unfold lockTicket at *
  cases hk : locks tid with
  | none => simp [hk] at h
  | some l =>
    simp only [hk] at h ⊢
    by_cases hlive : now < l.expiresAt
    · simp [hlive]
    · simp [hlive] at h

theorem lockTicket_true_owned (locks : TicketLockTable) (tid u : Nat) (now : Int)
    (h : (lockTicket locks tid u now).2 = true) :
    ownedBy (lockTicket locks tid u now).1 tid u := by
  cases hk : locks tid with
  | none =>
    refine ⟨⟨u, now, now + ticketLockTTL⟩, ?_, rfl⟩
    simp [lockTicket, hk]
  | some l =>
    by_cases hlive : now < l.expiresAt
    · refine ⟨l, ?_, ?_⟩
      · simp [lockTicket, hk, hlive]
      · have h2 := h
        simp [lockTicket, hk, hlive] at h2
        exact h2
    · refine ⟨⟨u, now, now + ticketLockTTL⟩, ?_, rfl⟩
      simp [lockTicket, hk, hlive]

theorem lockTicket_frame (locks : TicketLockTable) (tid u : Nat) (now : Int)
    (k : Nat) (hk : k ≠ tid) :
    (lockTicket locks tid u now).1 k = locks k := by
  unfold lockTicket
  cases locks tid with
  | none => simp [hk]
  | some l =>
    by_cases hlive : now < l.expiresAt
    · simp [hlive]
    · simp [hlive, hk]

theorem lockTicket_preserves_owned (locks : TicketLockTable) (tid u : Nat) (now : Int)
    (k : Nat) (h : ownedBy locks k u) :
    ownedBy (lockTicket locks tid u now).1 k u := by
  by_cases hk : k = tid
  · subst hk
    cases hkk : locks k with
    | none =>
      refine ⟨⟨u, now, now + ticketLockTTL⟩, ?_, rfl⟩
      simp [lockTicket, hkk]
    | some l =>
      by_cases hlive : now < l.expiresAt
      · have h1 : (lockTicket locks k u now).1 = locks := by
          simp [lockTicket, hkk, hlive]
        rw [h1]
        exact h
      · refine ⟨⟨u, now, now + ticketLockTTL⟩, ?_, rfl⟩
        simp [lockTicket, hkk, hlive]
  · obtain ⟨l, hl, hu⟩ := h
    refine ⟨l, ?_, hu⟩
    rw [lockTicket_frame locks tid u now k hk]
    exact hl

theorem unlockTicket_frame (locks : TicketLockTable) (tid u : Nat)
    (k : Nat) (hk : k ≠ tid) :
    (unlockTicket locks tid u).1 k = locks k := by
  unfold unlockTicket
  cases locks tid with
  | none => rfl
  | some l0 =>
    by_cases hne : l0.userID ≠ u
    · simp [hne]
    · simp [hne, hk]

theorem unlockTicket_owned_mono (locks : TicketLockTable) (tid u' : Nat)
    (k u : Nat) (h : ownedBy (unlockTicket locks tid u').1 k u) :
    ownedBy locks k u := by
  obtain ⟨l, hl, hu⟩ := h
  refine ⟨l, ?_, hu⟩
  by_cases hkt : k = tid
  · subst hkt
    cases hkk : locks k with
    | none =>
      rw [show (unlockTicket locks k u').1 = locks by simp [unlockTicket, hkk]] at hl
      rw [hkk] at hl
      simp at hl
    | some l0 =>
      by_cases hne : l0.userID = u'
      · rw [show (unlockTicket locks k u').1 k = none by
          simp [unlockTicket, hkk, hne]] at hl
        cases hl
      · rw [show (unlockTicket locks k u').1 = locks by
          simp [unlockTicket, hkk, hne]] at hl
        rw [hkk] at hl
        exact hl
  · rw [unlockTicket_frame locks tid u' k hkt] at hl
    exact hl

theorem unlockTicket_not_owned (locks : TicketLockTable) (tid u : Nat) :
    ¬ ownedBy (unlockTicket locks tid u).1 tid u := by
  rintro ⟨l, hl, hu⟩
  cases hk : locks tid with
  | none =>
    rw [show (unlockTicket locks tid u).1 = locks by simp [unlockTicket, hk]] at hl
    rw [hk] at hl
    cases hl
  | some l0 =>
    by_cases hne : l0.userID = u
    · rw [show (unlockTicket locks tid u).1 tid = none by
        simp [unlockTicket, hk, hne]] at hl
      cases hl
    · rw [show (unlockTicket locks tid u).1 = locks by
        simp [unlockTicket, hk, hne]] at hl
      rw [hk] at hl
      injection hl with h1
      refine hne ?_
      rw [h1]
      exact hu

/-! ## Lemmas about `releaseTickets` -/

theorem releaseTickets_owned_mono (ids : List Nat) :
    ∀ (locks : TicketLockTable) (u k u' : Nat),
      ownedBy (releaseTickets locks ids u) k u' → ownedBy locks k u' := by
  induction ids with
  | nil => intro locks u k u' h; exact h
  | cons t rest ih =>
    intro locks u k u' h
    exact unlockTicket_owned_mono locks t u k u' (ih _ u k u' h)

theorem releaseTickets_not_owned (ids : List Nat) :
    ∀ (locks : TicketLockTable) (u t : Nat), t ∈ ids →
      ¬ ownedBy (releaseTickets locks ids u) t u := by
  induction ids with
  | nil => intro _ _ _ h; cases h
  | cons t0 rest ih =>
    intro locks u t ht
    rcases List.mem_cons.mp ht with h | h
    · subst h
      intro hcon
      exact unlockTicket_not_owned locks t u
        (releaseTickets_owned_mono rest _ u t u hcon)
    · exact ih _ u t h

theorem releaseTickets_frame (ids : List Nat) :
    ∀ (locks : TicketLockTable) (u k : Nat), k ∉ ids →
      releaseTickets locks ids u k = locks k := by
  induction ids with
  | nil => intros; rfl
  | cons t0 rest ih =>
    intro locks u k hk
    have h1 : k ∉ rest := fun h => hk (List.mem_cons_of_mem _ h)
    have h2 : k ≠ t0 := fun h => hk (h ▸ List.mem_cons_self _ _)
    calc releaseTickets (unlockTicket locks t0 u).1 rest u k
        = (unlockTicket locks t0 u).1 k := ih _ u k h1
      _ = locks k := unlockTicket_frame locks t0 u k h2

/-! ## Lemmas about the ticket-locking loop -/

theorem lockLoop_ok_acquired (tickets : List Nat) :
    ∀ (locks : TicketLockTable) (u : Nat) (now : Int) (acc : List Nat),
      (lockLoop locks tickets u now acc).ok = true →
      (lockLoop locks tickets u now acc).acquired = acc ++ tickets := by
  induction tickets with
  | nil => intro locks u now acc _; simp [lockLoop]
  | cons t rest ih =>
    intro locks u now acc hok
    unfold lockLoop at hok ⊢
    by_cases hr : (lockTicket locks t u now).2
    · simp only [hr, if_true] at hok ⊢
      rw [ih _ u now (acc ++ [t]) hok]
      simp
    · simp [hr] at hok

theorem lockLoop_acc_mem (tickets : List Nat) :
    ∀ (locks : TicketLockTable) (u : Nat) (now : Int) (acc : List Nat) (s : Nat),
      s ∈ acc → s ∈ (lockLoop locks tickets u now acc).acquired := by
  induction tickets with
  | nil => intro locks u now acc s hs; simpa [lockLoop] using hs
  | cons t rest ih =>
    intro locks u now acc s hs
    unfold lockLoop
    by_cases hr : (lockTicket locks t u now).2
    · simp only [hr, if_true]
      exact ih _ u now (acc ++ [t]) s (List.mem_append_left _ hs)
    · simpa [hr] using hs

theorem lockLoop_acquired_owned (tickets : List Nat) :
    ∀ (locks : TicketLockTable) (u : Nat) (now : Int) (acc : List Nat),
      (∀ s ∈ acc, ownedBy locks s u) →
      ∀ t ∈ (lockLoop locks tickets u now acc).acquired,
        ownedBy (lockLoop locks tickets u now acc).locks t u := by
  induction tickets with
  | nil => intro locks u now acc hacc t ht; exact hacc t ht
  | cons t0 rest ih =>
    intro locks u now acc hacc t ht
    unfold lockLoop at ht ⊢
    by_cases hr : (lockTicket locks t0 u now).2
    · simp only [hr, if_true] at ht ⊢
      refine ih _ u now (acc ++ [t0]) ?_ t ht
      intro s hs
      rcases List.mem_append.mp hs with h | h
      · exact lockTicket_preserves_owned locks t0 u now s (hacc s h)
      · have hst : s = t0 := by simpa using h
        rw [hst]
        exact lockTicket_true_owned locks t0 u now (by simpa using hr)
    · simp only [hr, if_false] at ht ⊢
      rw [lockTicket_false_unchanged locks t0 u now (by simpa using hr)]
      exact hacc t ht

theorem lockLoop_untouched (tickets : List Nat) :
    ∀ (locks : TicketLockTable) (u : Nat) (now : Int) (acc : List Nat) (k : Nat),
      k ∉ (lockLoop locks tickets u now acc).acquired →
      (lockLoop locks tickets u now acc).locks k = locks k := by
  induction tickets with
  | nil => intros; rfl
  | cons t0 rest ih =>
    intro locks u now acc k hk
    unfold lockLoop at hk ⊢
    by_cases hr : (lockTicket locks t0 u now).2
    · simp only [hr, if_true] at hk ⊢
      have hkt : k ≠ t0 := by
        intro h
        subst h
        exact hk (lockLoop_acc_mem rest _ u now (acc ++ [k]) k (by simp))
      rw [ih _ u now (acc ++ [t0]) k hk]
      exact lockTicket_frame locks t0 u now k hkt
    · simp only [hr, if_false] at hk ⊢
      exact congrFun (lockTicket_false_unchanged locks t0 u now (by simpa using hr)) k

theorem lockLoop_acquired_sub (tickets : List Nat) :
    ∀ (locks : TicketLockTable) (u : Nat) (now : Int) (acc : List Nat) (t : Nat),
      t ∈ (lockLoop locks tickets u now acc).acquired → t ∈ acc ∨ t ∈ tickets := by
  induction tickets with
  | nil => intro locks u now acc t ht; exact Or.inl (by simpa [lockLoop] using ht)
  | cons t0 rest ih =>
    intro locks u now acc t ht
    unfold lockLoop at ht
    by_cases hr : (lockTicket locks t0 u now).2
    · simp only [hr, if_true] at ht
      rcases ih _ u now (acc ++ [t0]) t ht with h | h
      · rcases List.mem_append.mp h with h1 | h1
        · exact Or.inl h1
        · have ht0 : t = t0 := by simpa using h1
          exact Or.inr (by simp [ht0])
      · exact Or.inr (List.mem_cons_of_mem _ h)
    · simp only [hr, if_false] at ht
      exact Or.inl ht

/-! ## Claim theorems for the ticket lock manager -/

/-- C2: while a non-expired entry for one owner exists, `LockTicket` by any
other user returns `false` and leaves the lock table (holder, acquired-at,
expiry of every entry) unchanged — at most one booker can hold a live lock
on a ticket at any instant. -/
theorem lockTicket_mutual_exclusion (locks : TicketLockTable) (tid u : Nat)
    (l : TicketLock) (now : Int)
    (hentry : locks tid = some l) (hlive : now < l.expiresAt)
    (hdiff : u ≠ l.userID) :
    lockTicket locks tid u now = (locks, false) := by
  unfold lockTicket
  rw [hentry]
  simp only [hlive, if_true]
  have : (l.userID == u) = false := by
    simp [Ne.symm hdiff]
  rw [this]

theorem lockTicket_mutual_exclusion_witness :
    lockTicket (fun k => if k = 1 then some ⟨7, 0, 600⟩ else none) 1 8 5
      = ((fun k => if k = 1 then some ⟨7, 0, 600⟩ else none), false) :=
  lockTicket_mutual_exclusion _ 1 8 ⟨7, 0, 600⟩ 5 rfl (by decide) (by decide)

/-- C3 counterexample: a same-owner re-lock of a live entry returns `true`
but does NOT refresh the stored expiry: with the entry
`{userID := 7, lockedAt := 0, expiresAt := 600}` still live at `now = 100`,
re-locking by user 7 leaves the expiry at `600`, not `now + TTL = 700`. -/
theorem lockTicket_relock_counterexample :
    (lockTicket (fun k => if k = 1 then some ⟨7, 0, 600⟩ else none) 1 7 100).2 = true ∧
    (lockTicket (fun k => if k = 1 then some ⟨7, 0, 600⟩ else none) 1 7 100).1 1
      = some ⟨7, 0, 600⟩ ∧
    (600 : Int) ≠ 100 + ticketLockTTL := by
  refine ⟨rfl, rfl, by decide⟩

/-- C3 (amended): when a caller already holds a live (non-expired) lock on a
ticket, calling `LockTicket` again with the same owner returns `true` and
leaves the stored entry — including its expiry — unchanged (the expiry is
not extended). -/
theorem lockTicket_same_owner_relock (locks : TicketLockTable) (tid u : Nat)
    (l : TicketLock) (now : Int)
    (hentry : locks tid = some l) (hlive : now < l.expiresAt)
    (hown : l.userID = u) :
    lockTicket locks tid u now = (locks, true) := by
  unfold lockTicket
  rw [hentry]
  simp [hlive, hown]

theorem lockTicket_same_owner_relock_witness :
    lockTicket (fun k => if k = 1 then some ⟨7, 0, 600⟩ else none) 1 7 100
      = ((fun k => if k = 1 then some ⟨7, 0, 600⟩ else none), true) :=
  lockTicket_same_owner_relock _ 1 7 ⟨7, 0, 600⟩ 100 rfl (by decide) rfl

/-- C4: a ticket lock acquired at `t0` (so its expiry is `t0 + 10` minutes)
is reported unlocked by `IsTicketLocked` at every `t ≥ t0 + 10` minutes, and
at such `t` `LockTicket` by any owner succeeds by overwriting the expired
entry with a fresh one — both operations check expiry live, with no sweep
needed beforehand. -/
theorem expired_ticket_lock (locks : TicketLockTable) (tid u0 : Nat) (t0 t : Int)
    (hentry : locks tid = some ⟨u0, t0, t0 + ticketLockTTL⟩)
    (hexp : t0 + ticketLockTTL ≤ t) :
    isTicketLocked locks tid t = false ∧
    ∀ u : Nat,
      (lockTicket locks tid u t).2 = true ∧
      (lockTicket locks tid u t).1 tid
        = some { userID := u, lockedAt := t, expiresAt := t + ticketLockTTL } ∧
      ∀ k, k ≠ tid → (lockTicket locks tid u t).1 k = locks k := by
  have hnl : ¬ t < t0 + ticketLockTTL := not_lt.mpr hexp
  constructor
  · unfold isTicketLocked
    rw [hentry]
    simpa using hnl
  · intro u
    refine ⟨?_, ?_, fun k hk => lockTicket_frame locks tid u t k hk⟩
    · unfold lockTicket
      rw [hentry]
      simp [hnl]
    · unfold lockTicket
      rw [hentry]
      simp [hnl]

theorem expired_ticket_lock_witness :
    isTicketLocked (fun k => if k = 1 then some ⟨7, 0, 600⟩ else none) 1 600 = false ∧
    (lockTicket (fun k => if k = 1 then some ⟨7, 0, 600⟩ else none) 1 8 600).2 = true ∧
    (lockTicket (fun k => if k = 1 then some ⟨7, 0, 600⟩ else none) 1 8 600).1 1
      = some ⟨8, 600, 1200⟩ := by
  have h := expired_ticket_lock
    (fun k => if k = 1 then some ⟨7, 0, 600⟩ else none) 1 7 0 600 rfl (by decide)
  exact ⟨h.1, (h.2 8).1, (h.2 8).2.1⟩

/-- C7: `UnlockTicket` removes the entry and returns `true` iff an entry for
the ticket exists and its recorded holder equals the caller; with no entry,
or a different holder, it returns `false` and leaves the table unchanged. -/
theorem unlockTicket_owner_only (locks : TicketLockTable) (tid u : Nat) :
    (∀ l, locks tid = some l → l.userID = u →
      (unlockTicket locks tid u).2 = true ∧
      (unlockTicket locks tid u).1 tid = none ∧
      ∀ k, k ≠ tid → (unlockTicket locks tid u).1 k = locks k) ∧
    (locks tid = none → unlockTicket locks tid u = (locks, false)) ∧
    (∀ l, locks tid = some l → l.userID ≠ u →
      unlockTicket locks tid u = (locks, false)) := by
  refine ⟨?_, ?_, ?_⟩
  · intro l hl hown
    refine ⟨?_, ?_, fun k hk => unlockTicket_frame locks tid u k hk⟩
    · unfold unlockTicket
      rw [hl]
      simp [hown]
    · unfold unlockTicket
      rw [hl]
      simp [hown]
  · intro hl
    unfold unlockTicket
    rw [hl]
  · intro l hl hne
    unfold unlockTicket
    rw [hl]
    simp [hne]

theorem unlockTicket_owner_only_witness :
    (unlockTicket (fun k => if k = 1 then some ⟨7, 0, 600⟩ else none) 1 7).2 = true ∧
    (unlockTicket (fun k => if k = 1 then some ⟨7, 0, 600⟩ else none) 1 7).1 1 = none ∧
    unlockTicket (fun k => if k = 1 then some ⟨7, 0, 600⟩ else none) 1 9
      = ((fun k => if k = 1 then some ⟨7, 0, 600⟩ else none), false) ∧
    unlockTicket (fun k => if k = 1 then some ⟨7, 0, 600⟩ else none) 2 7
      = ((fun k => if k = 1 then some ⟨7, 0, 600⟩ else none), false) := by
  have h1 := (unlockTicket_owner_only
    (fun k => if k = 1 then some ⟨7, 0, 600⟩ else none) 1 7).1 ⟨7, 0, 600⟩ rfl rfl
  have h2 := (unlockTicket_owner_only
    (fun k => if k = 1 then some ⟨7, 0, 600⟩ else none) 1 9).2.2 ⟨7, 0, 600⟩ rfl (by decide)
  have h3 := (unlockTicket_owner_only
    (fun k => if k = 1 then some ⟨7, 0, 600⟩ else none) 2 7).2.1 rfl
  exact ⟨h1.1, h1.2.1, h2, h3⟩

/-! ## Claim theorems for queue routing and admission -/

theorem foldl_mod_eq_sum_mod (n : Nat) (hn : 0 < n) :
    ∀ (cs : List Char) (a : Nat), a < n →
      cs.foldl (fun queueIndex c => (queueIndex + c.toNat) % n) a
        = (a + (cs.map Char.toNat).sum) % n := by
  intro cs
  induction cs with
  | nil =>
    intro a ha
    simp [Nat.mod_eq_of_lt ha]
  | cons c cs ih =>
    intro a ha
    have hlt : (a + c.toNat) % n < n := Nat.mod_lt _ hn
    calc (c :: cs).foldl (fun queueIndex ch => (queueIndex + ch.toNat) % n) a
        = cs.foldl (fun queueIndex ch => (queueIndex + ch.toNat) % n)
            ((a + c.toNat) % n) := rfl
      _ = ((a + c.toNat) % n + (cs.map Char.toNat).sum) % n := ih _ hlt
      _ = (a + c.toNat + (cs.map Char.toNat).sum) % n := by
          rw [Nat.mod_add_mod]
      _ = (a + ((c :: cs).map Char.toNat).sum) % n := by
          simp [Nat.add_assoc]

/-- C9: the queue index is a pure, deterministic function of the event
identifier's string form and the queue count — the character-sum hash folded
with `%` equals the sum of the code points modulo `queueCount` — and
`GetQueue` returns exactly the queue sitting at the index computed by
`getQueueIndex`. -/
theorem queue_routing_stable (qm : QueueManager) (eventID : String)
    (hn : 0 < qm.queueCount) :
    getQueueIndex qm.queueCount eventID
        = (eventID.data.map Char.toNat).sum % qm.queueCount ∧
    GetQueue qm eventID = qm.queues.getD (getQueueIndex qm.queueCount eventID) [] := by
  constructor
  · unfold getQueueIndex
    simpa using foldl_mod_eq_sum_mod qm.queueCount hn eventID.data 0 hn
  · rfl

theorem queue_routing_stable_witness :
    0 < (3 : Nat) ∧
    GetQueue ⟨[[], [], []], 3, 100⟩ "ab"
      = (⟨[[], [], []], 3, 100⟩ : QueueManager).queues.getD (getQueueIndex 3 "ab") [] :=
  ⟨by decide, (queue_routing_stable ⟨[[], [], []], 3, 100⟩ "ab" (by decide)).2⟩

/-- C6: `Enqueue` routes the request to the queue selected by
`getQueueIndex` of its event identifier and never blocks: when that queue is
at capacity it returns an error immediately (`false`) with every queue left
unchanged, and otherwise it appends the request at the tail of that queue
and returns success (`nil` error, `true`). -/
theorem enqueue_non_blocking (qm : QueueManager) (req : BookingRequest) :
    ((qm.queues.getD (getQueueIndex qm.queueCount req.eventID) []).length
        < qm.bufferSize →
      Enqueue qm req
        = ({ qm with
              queues := qm.queues.set (getQueueIndex qm.queueCount req.eventID)
                ((qm.queues.getD (getQueueIndex qm.queueCount req.eventID) []) ++ [req]) },
           true)) ∧
    (¬ (qm.queues.getD (getQueueIndex qm.queueCount req.eventID) []).length
        < qm.bufferSize →
      Enqueue qm req = (qm, false)) := by
  constructor
  · intro h
    simp only [Enqueue]
    rw [if_pos h]
  · intro h
    simp only [Enqueue]
    rw [if_neg h]

theorem enqueue_non_blocking_witness :
    Enqueue ⟨[[⟨"r", 1, "e", [1], 0, 0⟩]], 1, 1⟩ ⟨"q", 2, "e", [2], 0, 0⟩
      = (⟨[[⟨"r", 1, "e", [1], 0, 0⟩]], 1, 1⟩, false) ∧
    Enqueue ⟨[[]], 1, 1⟩ ⟨"q", 2, "e", [2], 0, 0⟩
      = (⟨[[⟨"q", 2, "e", [2], 0, 0⟩]], 1, 1⟩, true) := by
  constructor
  · exact (enqueue_non_blocking ⟨[[⟨"r", 1, "e", [1], 0, 0⟩]], 1, 1⟩
      ⟨"q", 2, "e", [2], 0, 0⟩).2 (by decide)
  · have h := (enqueue_non_blocking ⟨[[]], 1, 1⟩ ⟨"q", 2, "e", [2], 0, 0⟩).1 (by decide)
    rw [h]
    rfl

/-! ## Claim theorems for the event lock manager -/

/-- C5 counterexample: an event lock entry with `refCount = 1`,
`lastUsed = 1000`, `expiresAt = 2800` (30-minute TTL) is released at
`t = 1100`, dropping its count to zero; the code backdates the expiry to
`1099`, so a cleanup sweep at `t = 1160` — only 60 seconds after the count
reached zero (well inside the supposed 5-minute grace period) and long
before `lastUsed + 30` minutes — removes the entry. -/
theorem event_lock_grace_counterexample :
    (releaseLock (fun k => if k = 7 then some ⟨1000, 2800, 1⟩ else none) 7 1100) 7
      = some ⟨1000, 1099, 0⟩ ∧
    (1160 : Int) < 1100 + eventLockMaxIdle ∧
    (1160 : Int) < 1000 + eventLockTTL ∧
    performCleanup
      (releaseLock (fun k => if k = 7 then some ⟨1000, 2800, 1⟩ else none) 7 1100)
      eventLockMaxIdle 1160 7 = none := by
  refine ⟨rfl, by decide, by decide, ?_⟩
  decide

/-- C5 (amended): a `ReleaseLock` that brings an event lock's reference
count to zero (or below) backdates the entry's expiry to one second before
the release instant, so the entry is removed by the very next cleanup sweep
at any time at or after the release — there is no grace period before
eviction. -/
theorem releaseLock_zero_no_grace (locks : EventLockTable) (e : Nat)
    (l : EventLock) (maxIdle r c : Int)
    (hentry : locks e = some l) (href : l.refCount ≤ 1) (hrc : r ≤ c) :
    performCleanup (releaseLock locks e r) maxIdle c e = none := by
  have hmark : releaseLock locks e r e = some { l with refCount := l.refCount - 1, expiresAt := r - 1 } := by
    unfold releaseLock
    rw [hentry]
    simp only
    have hd : l.refCount - 1 ≤ 0 := by omega
    simp [hd]
  unfold performCleanup
  rw [hmark]
  have hexp : r - 1 < c := by omega
  simp [hexp]

theorem releaseLock_zero_no_grace_witness :
    performCleanup (releaseLock (fun k => if k = 7 then some ⟨1000, 2800, 1⟩ else none) 7 1100)
      eventLockMaxIdle 1100 7 = none :=
  releaseLock_zero_no_grace (fun k => if k = 7 then some ⟨1000, 2800, 1⟩ else none) 7
    ⟨1000, 2800, 1⟩ eventLockMaxIdle 1100 1100 rfl (by decide) (by decide)

/-! ## Branch equations for `processBookingRequest` -/

/-- The `Booking` record constructed by `processBookingRequest` once every
requested ticket lock has been acquired. -/
def builtBooking (req : BookingRequest) (acquired : List Nat) (now : Int)
    (newBookingID : Nat) : Booking :=
  { id := newBookingID
    userID := req.userID
    eventID := req.eventID
    ticketIDs := acquired
    status := .pending
    totalAmount := calculateTotalAmount acquired
    createdAt := now
    updatedAt := now
    expiresAt := now + bookingHoldDuration }

/-- The statistics after the unconditional `TotalRequests++` at the start of
`processBookingRequest`. -/
def bumpTotal (s : BookingStats) : BookingStats :=
  { s with totalRequests := s.totalRequests + 1 }

theorem process_userFail (st : ProcState) (req : BookingRequest)
    (o : CollabOracle) (now : Int) (bid : Nat) (hu : o.userOk = false) :
    processBookingRequest st req o now bid
      = ({ st with stats := recordFailure (bumpTotal st.stats) }, false) := by
  simp [processBookingRequest, bumpTotal, hu]

theorem process_eventFail (st : ProcState) (req : BookingRequest)
    (o : CollabOracle) (now : Int) (bid : Nat)
    (hu : o.userOk = true) (he : o.eventOk = false) :
    processBookingRequest st req o now bid
      = ({ st with stats := recordFailure (bumpTotal st.stats) }, false) := by
  simp [processBookingRequest, bumpTotal, hu, he]

theorem process_lockFail (st : ProcState) (req : BookingRequest)
    (o : CollabOracle) (now : Int) (bid : Nat)
    (hu : o.userOk = true) (he : o.eventOk = true)
    (hok : (lockLoop st.locks req.ticketIDs req.userID now []).ok = false) :
    processBookingRequest st req o now bid
      = (ProcState.mk
          (releaseTickets (lockLoop st.locks req.ticketIDs req.userID now []).locks
            (lockLoop st.locks req.ticketIDs req.userID now []).acquired req.userID)
          st.bookings
          (recordFailure (bumpTotal st.stats)), false) := by
  simp [processBookingRequest, bumpTotal, hu, he, hok]

theorem process_createFail (st : ProcState) (req : BookingRequest)
    (o : CollabOracle) (now : Int) (bid : Nat)
    (hu : o.userOk = true) (he : o.eventOk = true)
    (hok : (lockLoop st.locks req.ticketIDs req.userID now []).ok = true)
    (hc : o.createOk = false) :
    processBookingRequest st req o now bid
      = (ProcState.mk
          (releaseTickets (lockLoop st.locks req.ticketIDs req.userID now []).locks
            (lockLoop st.locks req.ticketIDs req.userID now []).acquired req.userID)
          st.bookings
          (recordFailure (bumpTotal st.stats)), false) := by
  simp [processBookingRequest, bumpTotal, hu, he, hok, hc]

theorem process_reserveFail (st : ProcState) (req : BookingRequest)
    (o : CollabOracle) (now : Int) (bid : Nat)
    (hu : o.userOk = true) (he : o.eventOk = true)
    (hok : (lockLoop st.locks req.ticketIDs req.userID now []).ok = true)
    (hc : o.createOk = true) (hr : o.reserveOk = false) :
    processBookingRequest st req o now bid
      = (ProcState.mk
          (releaseTickets (lockLoop st.locks req.ticketIDs req.userID now []).locks
            (lockLoop st.locks req.ticketIDs req.userID now []).acquired req.userID)
          (((builtBooking req (lockLoop st.locks req.ticketIDs req.userID now []).acquired
              now bid) :: st.bookings).filter (fun b => b.id ≠ bid))
          (recordFailure (bumpTotal st.stats)), false) := by
  simp [processBookingRequest, builtBooking, bumpTotal, hu, he, hok, hc, hr]

theorem process_successEq (st : ProcState) (req : BookingRequest)
    (o : CollabOracle) (now : Int) (bid : Nat)
    (hu : o.userOk = true) (he : o.eventOk = true)
    (hok : (lockLoop st.locks req.ticketIDs req.userID now []).ok = true)
    (hc : o.createOk = true) (hr : o.reserveOk = true) :
    processBookingRequest st req o now bid
      = (ProcState.mk
          (lockLoop st.locks req.ticketIDs req.userID now []).locks
          ((builtBooking req (lockLoop st.locks req.ticketIDs req.userID now []).acquired
              now bid) :: st.bookings)
          (recordSuccess (bumpTotal st.stats)), true) := by
  simp [processBookingRequest, builtBooking, bumpTotal, hu, he, hok, hc, hr]

theorem filter_fresh_bookings (bs : List Booking) (bid : Nat)
    (hfresh : ∀ b ∈ bs, b.id ≠ bid) :
    bs.filter (fun b => b.id ≠ bid) = bs :=
  List.filter_eq_self.mpr (fun b hb => by simpa using hfresh b hb)
/-! ## Claim theorems for `processBookingRequest` -/

/-- C1 (amended): if processing a dequeued request fails at any point in
steps 2-4 (a ticket lock cannot be acquired, `CreateBooking` errors, or
`ReserveTickets` errors), and the booker did not already hold a lock-table
entry on any ticket of the request before processing began, then after the
request completes the booker holds no ticket-lock entry on any ticket of
that request (every lock acquired during the request is released with the
booker as owner; tickets after the first lock failure are never attempted),
and any `Booking` record created for the request has been deleted — the
booking store is exactly as before (the fresh booking id not being already
in use). -/
theorem process_failure_clean (st : ProcState) (req : BookingRequest)
    (o : CollabOracle) (now : Int) (bid : Nat)
    (hu : o.userOk = true) (he : o.eventOk = true)
    (hfail : (processBookingRequest st req o now bid).2 = false)
    (hpre : ∀ t ∈ req.ticketIDs, ¬ ownedBy st.locks t req.userID)
    (hfresh : ∀ b ∈ st.bookings, b.id ≠ bid) :
    (∀ t ∈ req.ticketIDs,
      ¬ ownedBy (processBookingRequest st req o now bid).1.locks t req.userID) ∧
    (processBookingRequest st req o now bid).1.bookings = st.bookings := by
  by_cases hok : (lockLoop st.locks req.ticketIDs req.userID now []).ok = true
  · have hacq : (lockLoop st.locks req.ticketIDs req.userID now []).acquired
        = req.ticketIDs := by
      simpa using lockLoop_ok_acquired req.ticketIDs st.locks req.userID now [] hok
    by_cases hc : o.createOk = true
    · by_cases hr : o.reserveOk = true
      · rw [process_successEq st req o now bid hu he hok hc hr] at hfail
        cases hfail
      · have heq := process_reserveFail st req o now bid hu he hok hc (by simpa using hr)
        have hlocks : (processBookingRequest st req o now bid).1.locks
            = releaseTickets (lockLoop st.locks req.ticketIDs req.userID now []).locks
                (lockLoop st.locks req.ticketIDs req.userID now []).acquired req.userID := by
          rw [heq]
        have hbk : (processBookingRequest st req o now bid).1.bookings
            = ((builtBooking req (lockLoop st.locks req.ticketIDs req.userID now []).acquired
                now bid) :: st.bookings).filter (fun b => b.id ≠ bid) := by
          rw [heq]
        constructor
        · intro t ht
          rw [hlocks]
          refine releaseTickets_not_owned _ _ req.userID t ?_
          rw [hacq]
          exact ht
        · rw [hbk, List.filter_cons_of_neg]
          · exact filter_fresh_bookings st.bookings bid hfresh
          · simp [builtBooking]
    · have heq := process_createFail st req o now bid hu he hok (by simpa using hc)
      have hlocks : (processBookingRequest st req o now bid).1.locks
          = releaseTickets (lockLoop st.locks req.ticketIDs req.userID now []).locks
              (lockLoop st.locks req.ticketIDs req.userID now []).acquired req.userID := by
        rw [heq]
      have hbk : (processBookingRequest st req o now bid).1.bookings = st.bookings := by
        rw [heq]
      refine ⟨?_, hbk⟩
      intro t ht
      rw [hlocks]
      refine releaseTickets_not_owned _ _ req.userID t ?_
      rw [hacq]
      exact ht
  · have heq := process_lockFail st req o now bid hu he (by simpa using hok)
    have hlocks : (processBookingRequest st req o now bid).1.locks
        = releaseTickets (lockLoop st.locks req.ticketIDs req.userID now []).locks
            (lockLoop st.locks req.ticketIDs req.userID now []).acquired req.userID := by
      rw [heq]
    have hbk : (processBookingRequest st req o now bid).1.bookings = st.bookings := by
      rw [heq]
    refine ⟨?_, hbk⟩
    intro t ht
    rw [hlocks]
    by_cases hmem : t ∈ (lockLoop st.locks req.ticketIDs req.userID now []).acquired
    · exact releaseTickets_not_owned _ _ req.userID t hmem
    · rintro ⟨l, hl, hu2⟩
      rw [releaseTickets_frame _ _ req.userID t hmem,
        lockLoop_untouched req.ticketIDs st.locks req.userID now [] t hmem] at hl
      exact hpre t ht ⟨l, hl, hu2⟩

theorem process_failure_clean_witness :
    ¬ ownedBy (processBookingRequest
        ⟨fun _ => none, [], ⟨0, 0, 0, 0, 0, 0⟩⟩
        ⟨"r", 1, "e", [1, 2], 0, 0⟩ ⟨true, true, true, false⟩ 0 99).1.locks 1 1 ∧
    (processBookingRequest
        ⟨fun _ => none, [], ⟨0, 0, 0, 0, 0, 0⟩⟩
        ⟨"r", 1, "e", [1, 2], 0, 0⟩ ⟨true, true, true, false⟩ 0 99).1.bookings = [] := by
  have h := process_failure_clean
    ⟨fun _ => none, [], ⟨0, 0, 0, 0, 0, 0⟩⟩
    ⟨"r", 1, "e", [1, 2], 0, 0⟩ ⟨true, true, true, false⟩ 0 99
    rfl rfl (by decide) (by decide) (by simp)
  exact ⟨h.1 1 (by decide), h.2⟩

/-- C1 counterexample (to the claim as stated): with user/event validation
passing, a request for tickets `[10, 20]` by booker 1 fails at the very
first lock (ticket 10 is live-held by booker 2); ticket 20 is never
attempted, so a pre-existing lock the booker already held on ticket 20
survives — after the failed request the booker still holds a ticket lock on
a ticket of that request. -/
theorem process_failure_clean_counterexample :
    (processBookingRequest
        ⟨fun k => if k = 10 then some ⟨2, 0, 600⟩ else
                  if k = 20 then some ⟨1, 0, 600⟩ else none,
          [], ⟨0, 0, 0, 0, 0, 0⟩⟩
        ⟨"r", 1, "e", [10, 20], 0, 0⟩ ⟨true, true, true, true⟩ 5 99).2 = false ∧
    (20 : Nat) ∈ [10, 20] ∧
    ((processBookingRequest
        ⟨fun k => if k = 10 then some ⟨2, 0, 600⟩ else
                  if k = 20 then some ⟨1, 0, 600⟩ else none,
          [], ⟨0, 0, 0, 0, 0, 0⟩⟩
        ⟨"r", 1, "e", [10, 20], 0, 0⟩ ⟨true, true, true, true⟩ 5 99).1.locks 20).map
        TicketLock.userID = some 1 := by
  refine ⟨by decide, by decide, by decide⟩

/-- C8: on the success path (all requested ticket locks acquired,
`CreateBooking` and `ReserveTickets` both succeed) `processBookingRequest`
releases no ticket locks: after the request completes, every requested
ticket still has a lock-table entry whose holder is the booker, and the
entry of every ticket outside the request is untouched. -/
theorem process_success_keeps_locks (st : ProcState) (req : BookingRequest)
    (o : CollabOracle) (now : Int) (bid : Nat)
    (hsucc : (processBookingRequest st req o now bid).2 = true) :
    (∀ t ∈ req.ticketIDs,
      ownedBy (processBookingRequest st req o now bid).1.locks t req.userID) ∧
    (∀ k, k ∉ req.ticketIDs →
      (processBookingRequest st req o now bid).1.locks k = st.locks k) := by
  by_cases hu : o.userOk = true
  · by_cases he : o.eventOk = true
    · by_cases hok : (lockLoop st.locks req.ticketIDs req.userID now []).ok = true
      · by_cases hc : o.createOk = true
        · by_cases hr : o.reserveOk = true
          · have hacq : (lockLoop st.locks req.ticketIDs req.userID now []).acquired
                = req.ticketIDs := by
              simpa using lockLoop_ok_acquired req.ticketIDs st.locks req.userID now [] hok
            have heq := process_successEq st req o now bid hu he hok hc hr
            have hlocks : (processBookingRequest st req o now bid).1.locks
                = (lockLoop st.locks req.ticketIDs req.userID now []).locks := by
              rw [heq]
            constructor
            · intro t ht
              rw [hlocks]
              refine lockLoop_acquired_owned req.ticketIDs st.locks req.userID now []
                (by intro s hs; cases hs) t ?_
              rw [hacq]
              exact ht
            · intro k hk
              rw [hlocks]
              refine lockLoop_untouched req.ticketIDs st.locks req.userID now [] k ?_
              rw [hacq]
              exact hk
          · rw [process_reserveFail st req o now bid hu he hok hc
              (by simpa using hr)] at hsucc
            cases hsucc
        · rw [process_createFail st req o now bid hu he hok
            (by simpa using hc)] at hsucc
          cases hsucc
      · rw [process_lockFail st req o now bid hu he (by simpa using hok)] at hsucc
        cases hsucc
    · rw [process_eventFail st req o now bid hu (by simpa using he)] at hsucc
      cases hsucc
  · rw [process_userFail st req o now bid (by simpa using hu)] at hsucc
    cases hsucc

theorem process_success_keeps_locks_witness :
    ownedBy (processBookingRequest
        ⟨fun _ => none, [], ⟨0, 0, 0, 0, 0, 0⟩⟩
        ⟨"r", 1, "e", [1, 2], 0, 0⟩ ⟨true, true, true, true⟩ 0 99).1.locks 1 1 ∧
    (processBookingRequest
        ⟨fun _ => none, [], ⟨0, 0, 0, 0, 0, 0⟩⟩
        ⟨"r", 1, "e", [1, 2], 0, 0⟩ ⟨true, true, true, true⟩ 0 99).1.locks 3 = none := by
  have h := process_success_keeps_locks
    ⟨fun _ => none, [], ⟨0, 0, 0, 0, 0, 0⟩⟩
    ⟨"r", 1, "e", [1, 2], 0, 0⟩ ⟨true, true, true, true⟩ 0 99 (by decide)
  exact ⟨h.1 1 (by decide), h.2 3 (by decide)⟩

/-- C10: every complete execution of `processBookingRequest` increments
`TotalRequests` by exactly 1 and exactly one of `SuccessfulBookings` or
`FailedBookings` by exactly 1 (one outcome is recorded on every path);
consequently whenever `TotalRequests = SuccessfulBookings + FailedBookings`
held before the request — in particular starting from zeroed statistics —
it holds again after the request completes. -/
theorem process_stats_accounting (st : ProcState) (req : BookingRequest)
    (o : CollabOracle) (now : Int) (bid : Nat) :
    (processBookingRequest st req o now bid).1.stats.totalRequests
      = st.stats.totalRequests + 1 ∧
    (((processBookingRequest st req o now bid).2 = true ∧
      (processBookingRequest st req o now bid).1.stats.successfulBookings
        = st.stats.successfulBookings + 1 ∧
      (processBookingRequest st req o now bid).1.stats.failedBookings
        = st.stats.failedBookings) ∨
     ((processBookingRequest st req o now bid).2 = false ∧
      (processBookingRequest st req o now bid).1.stats.successfulBookings
        = st.stats.successfulBookings ∧
      (processBookingRequest st req o now bid).1.stats.failedBookings
        = st.stats.failedBookings + 1)) ∧
    (st.stats.totalRequests = st.stats.successfulBookings + st.stats.failedBookings →
      (processBookingRequest st req o now bid).1.stats.totalRequests
        = (processBookingRequest st req o now bid).1.stats.successfulBookings
          + (processBookingRequest st req o now bid).1.stats.failedBookings) := by
  by_cases hu : o.userOk = true
  · by_cases he : o.eventOk = true
    · by_cases hok : (lockLoop st.locks req.ticketIDs req.userID now []).ok = true
      · by_cases hc : o.createOk = true
        · by_cases hr : o.reserveOk = true
          · rw [process_successEq st req o now bid hu he hok hc hr]
            refine ⟨rfl, Or.inl ⟨rfl, rfl, rfl⟩, ?_⟩
            intro h
            show st.stats.totalRequests + 1
              = (st.stats.successfulBookings + 1) + st.stats.failedBookings
            omega
          · rw [process_reserveFail st req o now bid hu he hok hc (by simpa using hr)]
            refine ⟨rfl, Or.inr ⟨rfl, rfl, rfl⟩, ?_⟩
            intro h
            show st.stats.totalRequests + 1
              = st.stats.successfulBookings + (st.stats.failedBookings + 1)
            omega
        · rw [process_createFail st req o now bid hu he hok (by simpa using hc)]
          refine ⟨rfl, Or.inr ⟨rfl, rfl, rfl⟩, ?_⟩
          intro h
          show st.stats.totalRequests + 1
            = st.stats.successfulBookings + (st.stats.failedBookings + 1)
          omega
      · rw [process_lockFail st req o now bid hu he (by simpa using hok)]
        refine ⟨rfl, Or.inr ⟨rfl, rfl, rfl⟩, ?_⟩
        intro h
        show st.stats.totalRequests + 1
          = st.stats.successfulBookings + (st.stats.failedBookings + 1)
        omega
    · rw [process_eventFail st req o now bid hu (by simpa using he)]
      refine ⟨rfl, Or.inr ⟨rfl, rfl, rfl⟩, ?_⟩
      intro h
      show st.stats.totalRequests + 1
        = st.stats.successfulBookings + (st.stats.failedBookings + 1)
      omega
  · rw [process_userFail st req o now bid (by simpa using hu)]
    refine ⟨rfl, Or.inr ⟨rfl, rfl, rfl⟩, ?_⟩
    intro h
    show st.stats.totalRequests + 1
      = st.stats.successfulBookings + (st.stats.failedBookings + 1)
    omega

theorem process_stats_accounting_witness :
    (processBookingRequest
        ⟨fun _ => none, [], ⟨0, 0, 0, 0, 0, 0⟩⟩
        ⟨"r", 1, "e", [1], 0, 0⟩ ⟨true, true, true, true⟩ 0 99).1.stats.totalRequests
      = (processBookingRequest
        ⟨fun _ => none, [], ⟨0, 0, 0, 0, 0, 0⟩⟩
        ⟨"r", 1, "e", [1], 0, 0⟩ ⟨true, true, true, true⟩ 0 99).1.stats.successfulBookings
        + (processBookingRequest
        ⟨fun _ => none, [], ⟨0, 0, 0, 0, 0, 0⟩⟩
        ⟨"r", 1, "e", [1], 0, 0⟩ ⟨true, true, true, true⟩ 0 99).1.stats.failedBookings :=
  (process_stats_accounting
    ⟨fun _ => none, [], ⟨0, 0, 0, 0, 0, 0⟩⟩
    ⟨"r", 1, "e", [1], 0, 0⟩ ⟨true, true, true, true⟩ 0 99).2.2 rfl

end BookingManager
